import Mathlib

/-!
Verification of the mempool-collector write pipeline
(`collector/tx_processor.go`): a shallow embedding of `processTx`,
`getOutputCSVFiles`, `getFilename` and the known-tx sweep of
`cleanupBackgroundTask`, with theorems about deduplication, error
handling, bucket routing and TTL eviction.

Conventions of the embedding:
* transaction hashes are represented by their hex rendering (a `String`);
  `Tx.Hash().Hex()` is injective, so keying the known-tx map by the hex
  string is faithful to keying it by the 32-byte hash;
* `time.Time` values are represented by their `UnixMilli` value (an `Int`);
  Go stores seconds plus a nonnegative sub-second part, so
  `t.Unix() = t.UnixMilli().fdiv 1000`;
* file contents are kept as append logs of `(path, row)` pairs, one log per
  file category (`txs` / `sourcelog` / `trash`), the row being the record
  whose `render` gives the exact line written by `fmt.Fprintf`;
* fallible externals (directory creation, file opens, file writes, the
  inclusion RPC) are driven by explicit per-arrival oracles.
-/

/-- The transaction object, reduced to what `processTx` consumes:
`Tx.Hash().Hex()` and the result of `common.TxToRLPString` (`none` models an
encoding error). -/
structure Tx where
  hashHex : String
  rlp : Option String
deriving DecidableEq, Repr

/-- `TxIn` — the unit of ingestion: observation time (`UnixMilli`), the
transaction, and the source tag. -/
structure TxIn where
  t : Int
  tx : Tx
  source : String
deriving DecidableEq, Repr

/-- `t.Unix()` recovered from the `UnixMilli` representation: Go keeps a
nonnegative fractional part, so seconds are the floor division by 1000. -/
def unixSec (tMilli : Int) : Int := Int.fdiv tMilli 1000

/-- Modelled from the spec: the `bucketMinutes` constant is declared outside
the provided source files; the spec fixes the default `BUCKET_MINUTES = 60`. -/
def bucketMinutes : Int := 60

/-- `sec := int64(bucketMinutes * 60)` in `getOutputCSVFiles`. -/
def bucketSec : Int := bucketMinutes * 60

/-- `bucketTS := timestamp / sec * sec` — Go division on `int64` truncates
toward zero, hence `Int.tdiv`. -/
def bucketOf (timestamp : Int) : Int := Int.tdiv timestamp bucketSec * bucketSec

/-- Modelled from the spec: the `txCacheTime` constant is declared outside
the provided source files; the spec fixes the default `TX_CACHE_TTL` of
30 minutes. Milliseconds. -/
def txCacheTime : Int := 30 * 60 * 1000

/-- The housekeeper tick: `time.Sleep(time.Minute)` in
`cleanupBackgroundTask`. Milliseconds. -/
def tickPeriod : Int := 60 * 1000

/-- Modelled from the spec: the `TrashTxAlreadyOnChain` constant is declared
outside the provided source files; the spec fixes the trash reason string
`tx-already-on-chain`. -/
def TrashTxAlreadyOnChain : String := "tx-already-on-chain"

/-- Civil date from days since 1970-01-01 (proleptic Gregorian), the
arithmetic behind Go's `time.Unix(ts, 0).UTC()` date components. -/
def civilFromDays (z0 : Int) : Int × Nat × Nat :=
  let z : Int := z0 + 719468
  let era : Int := Int.fdiv z 146097
  let doe : Nat := (z - era * 146097).toNat
  let yoe : Nat := (doe - doe / 1460 + doe / 36524 - doe / 146096) / 365
  let y : Int := (yoe : Int) + era * 400
  let doy : Nat := doe - (365 * yoe + yoe / 4 - yoe / 100)
  let mp : Nat := (5 * doy + 2) / 153
  let d : Nat := doy - (153 * mp + 2) / 5 + 1
  let m : Nat := if mp < 10 then mp + 3 else mp - 9
  (if m ≤ 2 then y + 1 else y, m, d)

/-- UTC broken-down time of a unix-seconds value, to minute resolution. -/
structure DateTimeUTC where
  year : Int
  month : Nat
  day : Nat
  hour : Nat
  minute : Nat
deriving DecidableEq, Repr

/-- `time.Unix(sec, 0).UTC()` broken down to the fields the formats use. -/
def utcOfUnix (sec : Int) : DateTimeUTC :=
  let days := Int.fdiv sec 86400
  let sod : Nat := (Int.emod sec 86400).toNat
  let c := civilFromDays days
  { year := c.1, month := c.2.1, day := c.2.2,
    hour := sod / 3600, minute := sod % 3600 / 60 }

/-- Two-digit zero-padded decimal (Go's `01`/`02`/`15`/`04` verbs). -/
def pad2 (n : Nat) : String := if n < 10 then "0" ++ toString n else toString n

/-- Four-digit zero-padded decimal (Go's `2006` verb for CE years). -/
def pad4 (n : Nat) : String :=
  if n < 10 then "000" ++ toString n
  else if n < 100 then "00" ++ toString n
  else if n < 1000 then "0" ++ toString n
  else toString n

/-- `t.Format(time.DateOnly)`, i.e. `YYYY-MM-DD`, of a unix-seconds value. -/
def fmtDateOnly (sec : Int) : String :=
  let u := utcOfUnix sec
  (if u.year < 0 then "-" ++ pad4 (-u.year).toNat else pad4 u.year.toNat)
    ++ "-" ++ pad2 u.month ++ "-" ++ pad2 u.day

/-- `t.Format("2006-01-02_15-04")` of a unix-seconds value. -/
def fmtDateHM (sec : Int) : String :=
  let u := utcOfUnix sec
  fmtDateOnly sec ++ "_" ++ pad2 u.hour ++ "-" ++ pad2 u.minute

/-- `getFilename`: `fmt.Sprintf("%s%s_%s.csv", prefix, t.Format("2006-01-02_15-04"), p.uid)`
with a `_` appended to a non-empty prefix. -/
def getFilename (uid pfx : String) (timestamp : Int) : String :=
  let p := if pfx ≠ "" then pfx ++ "_" else pfx
  p ++ fmtDateHM timestamp ++ "_" ++ uid ++ ".csv"

/-- The static configuration of the `TxProcessor` that `processTx` reads:
`outDir`, `uid`, `writeSourcelog`, and whether `ethClient` is non-nil. -/
structure TxProcessorCfg where
  outDir : String
  uid : String
  writeSourcelog : Bool
  checkerConfigured : Bool
deriving DecidableEq, Repr

/-- Path of the bucket's transactions file:
`filepath.Join(outDir, t.Format(DateOnly), "transactions", getFilename("txs", bucketTS))`. -/
def txsPath (cfg : TxProcessorCfg) (bucketTS : Int) : String :=
  cfg.outDir ++ "/" ++ fmtDateOnly bucketTS ++ "/transactions/"
    ++ getFilename cfg.uid "txs" bucketTS

/-- Path of the bucket's sourcelog file. -/
def srcPath (cfg : TxProcessorCfg) (bucketTS : Int) : String :=
  cfg.outDir ++ "/" ++ fmtDateOnly bucketTS ++ "/sourcelog/"
    ++ getFilename cfg.uid "src" bucketTS

/-- Path of the bucket's trash file. -/
def trashPath (cfg : TxProcessorCfg) (bucketTS : Int) : String :=
  cfg.outDir ++ "/" ++ fmtDateOnly bucketTS ++ "/trash/"
    ++ getFilename cfg.uid "trash" bucketTS

/-- `OutFiles` — the per-bucket triple of open append handles, identified by
the paths they were opened with (`O_APPEND`: content accumulates by path). -/
structure OutFiles where
  fTxs : String
  fSourcelog : String
  fTrash : String
deriving DecidableEq, Repr

/-- The triple of canonical paths for a bucket key. -/
def canonicalFiles (cfg : TxProcessorCfg) (bucketTS : Int) : OutFiles :=
  { fTxs := txsPath cfg bucketTS
    fSourcelog := srcPath cfg bucketTS
    fTrash := trashPath cfg bucketTS }

/-- `TxDetail` — the persisted row of a first observation. -/
structure TxDetail where
  timestamp : Int
  hash : String
  rawTx : String
deriving DecidableEq, Repr

/-- The exact line `fmt.Fprintf(f, "%d,%s,%s\n", ...)` writes for a `TxDetail`. -/
def TxDetail.render (d : TxDetail) : String :=
  toString d.timestamp ++ "," ++ d.hash ++ "," ++ d.rawTx ++ "\n"

/-- A sourcelog row: `UnixMilli`, hash hex, source. -/
structure SrcRow where
  tsMs : Int
  hash : String
  source : String
deriving DecidableEq, Repr

/-- The exact line `fmt.Fprintf(f, "%d,%s,%s\n", ...)` writes for a sourcelog row. -/
def SrcRow.render (r : SrcRow) : String :=
  toString r.tsMs ++ "," ++ r.hash ++ "," ++ r.source ++ "\n"

/-- A trash row: `UnixMilli`, hash hex, source, reason, extra. -/
structure TrashRow where
  tsMs : Int
  hash : String
  source : String
  reason : String
  extra : String
deriving DecidableEq, Repr

/-- The exact line `fmt.Fprintf(f, "%d,%s,%s,%s,%s\n", ...)` writes for a trash row. -/
def TrashRow.render (r : TrashRow) : String :=
  toString r.tsMs ++ "," ++ r.hash ++ "," ++ r.source ++ "," ++ r.reason
    ++ "," ++ r.extra ++ "\n"

/-- `SourceCounter` — the three-level tally `cntType → source → key → count`,
as a total function defaulting to 0 (absent map entries count as zero). -/
def SourceCounter := String → String → String → Nat

/-- `Inc(cntType, source)`: `counts[cntType][source][cntType] += 1`. -/
def SourceCounter.inc (sc : SourceCounter) (cntType source : String) : SourceCounter :=
  fun c s k =>
    if c = cntType ∧ s = source ∧ k = cntType then sc c s k + 1 else sc c s k

/-- `IncKey(cntType, source, key)`: `counts[cntType][source][key] += 1`. -/
def SourceCounter.incKey (sc : SourceCounter) (cntType source key : String) : SourceCounter :=
  fun c s k =>
    if c = cntType ∧ s = source ∧ k = key then sc c s k + 1 else sc c s k

/-- `p.knownTxs[txHash] = t` — map insert. -/
def knownTxsInsert (m : String → Option Int) (h : String) (t : Int) :
    String → Option Int :=
  fun x => if x = h then some t else m x

/-- The mutable state of the `TxProcessor` that `processTx` touches, with the
three file categories kept as global append logs of `(path, row)` pairs. -/
structure TxProcessorState where
  outFiles : Int → Option OutFiles
  knownTxs : String → Option Int
  txCnt : Nat
  srcCnt : SourceCounter
  txsLog : List (String × TxDetail)
  srcLog : List (String × SrcRow)
  trashLog : List (String × TrashRow)

/-- The state of a freshly constructed `TxProcessor` (`NewTxProcessor`):
empty caches, zero counters, nothing written. -/
def initState : TxProcessorState :=
  { outFiles := fun _ => none
    knownTxs := fun _ => none
    txCnt := 0
    srcCnt := fun _ _ _ => 0
    txsLog := []
    srcLog := []
    trashLog := [] }

/-- Result of `ethClient.TransactionReceipt`: an error whose text is literally
`"not found"`, any other error, a nil receipt with nil error, or a receipt
carrying the inclusion block number. -/
inductive ReceiptResult where
  | errNotFound : ReceiptResult
  | errOther : String → ReceiptResult
  | nilReceipt : ReceiptResult
  | receipt : Int → ReceiptResult
deriving DecidableEq, Repr

/-- Whether the RPC outcome is an actual receipt (the only branch that
routes the arrival to `trash`). -/
def ReceiptResult.isIncluded : ReceiptResult → Bool
  | ReceiptResult.receipt _ => true
  | _ => false

/-- Per-arrival oracle for the fallible externals of `processTx`: whether
`getOutputCSVFiles` succeeds (when the bucket is not cached), whether each
`fmt.Fprintf` succeeds, and the inclusion-RPC outcome. -/
structure IOEnv where
  openOk : Bool
  sourcelogWriteOk : Bool
  trashWriteOk : Bool
  txsWriteOk : Bool
  receiptResult : ReceiptResult
deriving DecidableEq, Repr

/-- An oracle with no failures and a "not found" RPC answer. -/
def IOEnv.allOk : IOEnv :=
  { openOk := true, sourcelogWriteOk := true, trashWriteOk := true,
    txsWriteOk := true, receiptResult := ReceiptResult.errNotFound }

/-- How a `processTx` call ended: which `return` was taken. -/
inductive Outcome where
  | errOpenFiles : Outcome
  | errSourcelogWrite : Outcome
  | dedup : Outcome
  | trashed : Int → Outcome
  | errEncode : Outcome
  | errTxsWrite : Outcome
  | persisted : Outcome
deriving DecidableEq, Repr

/-- `getOutputCSVFiles`: probe the bucket cache; on a miss create the three
files (paths fully determined by the bucket key) and cache the triple. A
`none` result models an error of any of the mkdir/open steps, in which case
the cache is unchanged. Returns the handles, the state, and `isCreated`. -/
def getOutputCSVFiles (cfg : TxProcessorCfg) (env : IOEnv) (p : TxProcessorState)
    (timestamp : Int) : Option (OutFiles × TxProcessorState × Bool) :=
  let bucketTS := bucketOf timestamp
  match p.outFiles bucketTS with
  | some files => some (files, p, false)
  | none =>
    if env.openOk then
      let files := canonicalFiles cfg bucketTS
      some (files,
        { p with outFiles := fun b => if b = bucketTS then some files else p.outFiles b },
        true)
    else none

/-- The first step of `processTx`:
`srcCnt.Inc("all", source)` and `srcCnt.IncKey("unique", source, hash)`. -/
def countArrival (p : TxProcessorState) (txIn : TxIn) : TxProcessorState :=
  { p with
      srcCnt := SourceCounter.incKey (SourceCounter.inc p.srcCnt "all" txIn.source)
        "unique" txIn.source txIn.tx.hashHex }

/-- `processTx` — the per-arrival handler, step for step:
count `all`/`unique`; resolve output files; append the sourcelog line (if
configured); dedup-probe `knownTxs`; inclusion probe (a receipt routes the
line to `trash` and stops); count `txCnt`/`first`; RLP-encode; append the
`txs` line; finally mark the hash known. -/
def processTx (cfg : TxProcessorCfg) (env : IOEnv) (p : TxProcessorState)
    (txIn : TxIn) : TxProcessorState × Outcome :=
  let txHash := txIn.tx.hashHex
  let p1 := countArrival p txIn
  match getOutputCSVFiles cfg env p1 (unixSec txIn.t) with
  | none => (p1, Outcome.errOpenFiles)
  | some (files, p2, _isCreated) =>
    if cfg.writeSourcelog ∧ ¬ env.sourcelogWriteOk then
      (p2, Outcome.errSourcelogWrite)
    else
      let p3 :=
        if cfg.writeSourcelog then
          { p2 with srcLog := p2.srcLog
              ++ [(files.fSourcelog,
                   { tsMs := txIn.t, hash := txHash, source := txIn.source })] }
        else p2
      match p3.knownTxs txHash with
      | some _ => (p3, Outcome.dedup)
      | none =>
        match (if cfg.checkerConfigured then env.receiptResult
               else ReceiptResult.errNotFound) with
        | ReceiptResult.receipt b =>
          let p4 :=
            if env.trashWriteOk then
              { p3 with trashLog := p3.trashLog
                  ++ [(files.fTrash,
                       { tsMs := txIn.t, hash := txHash, source := txIn.source,
                         reason := TrashTxAlreadyOnChain, extra := toString b })] }
            else p3
          (p4, Outcome.trashed b)
        | _ =>
          let p5 :=
            { p3 with
                txCnt := p3.txCnt + 1
                srcCnt := SourceCounter.inc p3.srcCnt "first" txIn.source }
          match txIn.tx.rlp with
          | none => (p5, Outcome.errEncode)
          | some rlpHex =>
            if env.txsWriteOk then
              let row : TxDetail :=
                { timestamp := txIn.t, hash := txHash, rawTx := rlpHex }
              (({ p5 with
                    txsLog := p5.txsLog ++ [(files.fTxs, row)]
                    knownTxs := knownTxsInsert p5.knownTxs txHash txIn.t }),
                Outcome.persisted)
            else (p5, Outcome.errTxsWrite)

/-- Serial consumption of a list of arrivals (the single consumer loop of
`Start`), returning the final state and the outcome of each call. -/
def runTxs (cfg : TxProcessorCfg) (arrivals : List (IOEnv × TxIn))
    (p : TxProcessorState) : TxProcessorState × List Outcome :=
  match arrivals with
  | [] => (p, [])
  | a :: rest =>
    let r := processTx cfg a.1 p a.2
    let rr := runTxs cfg rest r.1
    (rr.1, r.2 :: rr.2)

/-- The known-tx sweep of one housekeeper pass:
`for k, v := range knownTxs { if time.Since(v) > txCacheTime { delete } }`. -/
def cleanupKnownTxs (now : Int) (m : String → Option Int) : String → Option Int :=
  fun h =>
    match m h with
    | none => none
    | some v => if now - v > txCacheTime then none else some v

/-- The six fallible filesystem steps of a fresh `getOutputCSVFiles` open, in
program order. -/
inductive OpenStep where
  | mkdirTxDir : OpenStep
  | openTxFile : OpenStep
  | mkdirSrcDir : OpenStep
  | openSrcFile : OpenStep
  | mkdirTrashDir : OpenStep
  | openTrashFile : OpenStep
deriving DecidableEq, Repr

/-- Trace of one fresh open: which file handles were opened, which were
closed before returning, and whether the call succeeded. -/
structure OpenTrace where
  opened : List OpenStep
  closed : List OpenStep
  ok : Bool
deriving DecidableEq, Repr

/-- The mkdir/open sequence of `getOutputCSVFiles` on a cache miss, step for
step: each failing step makes the function return the error at once —
no `Close` is called on any error path, so `closed` stays empty. -/
def openOutputFilesSeq (fail : OpenStep → Bool) : OpenTrace :=
  if fail OpenStep.mkdirTxDir then { opened := [], closed := [], ok := false }
  else if fail OpenStep.openTxFile then { opened := [], closed := [], ok := false }
  else if fail OpenStep.mkdirSrcDir then
    { opened := [OpenStep.openTxFile], closed := [], ok := false }
  else if fail OpenStep.openSrcFile then
    { opened := [OpenStep.openTxFile], closed := [], ok := false }
  else if fail OpenStep.mkdirTrashDir then
    { opened := [OpenStep.openTxFile, OpenStep.openSrcFile], closed := [], ok := false }
  else if fail OpenStep.openTrashFile then
    { opened := [OpenStep.openTxFile, OpenStep.openSrcFile], closed := [], ok := false }
  else { opened := [OpenStep.openTxFile, OpenStep.openSrcFile, OpenStep.openTrashFile],
         closed := [], ok := true }

/-- Number of rows carrying a given hash across all `txs` files. -/
def txsRowCount (l : List (String × TxDetail)) (h : String) : Nat :=
  (l.filter (fun pr => pr.2.hash == h)).length

/-- An arrival on which no external operation fails and the inclusion check
reports not-on-chain: open and writes succeed, the RPC yields no receipt,
and the RLP encoding succeeds. -/
def okArrival (a : IOEnv × TxIn) : Prop :=
  a.1.openOk = true ∧ a.1.sourcelogWriteOk = true ∧ a.1.txsWriteOk = true
    ∧ a.1.receiptResult.isIncluded = false ∧ a.2.tx.rlp.isSome = true

instance (a : IOEnv × TxIn) : Decidable (okArrival a) := by
  unfold okArrival
  infer_instance

/-- Follows the spec's words for the dedup property: the first arrival of
each distinct hash is persisted, and every later arrival of an already-seen
hash stops at the dedup probe. -/
def specDedupOutcomes (seen : String → Bool) : List (IOEnv × TxIn) → List Outcome
  | [] => []
  | a :: rest =>
    if seen a.2.tx.hashHex then Outcome.dedup :: specDedupOutcomes seen rest
    else Outcome.persisted
      :: specDedupOutcomes (fun x => if x = a.2.tx.hashHex then true else seen x) rest

/-- Events acting on the known-tx map: an insert performed by a persisting
`processTx` at its arrival timestamp, or one housekeeper sweep at a given
wall-clock time. -/
inductive KtEvent where
  | ins : String → Int → KtEvent
  | sweep : Int → KtEvent
deriving DecidableEq, Repr

/-- Effect of one event on the known-tx map. -/
def applyKtEvent (m : String → Option Int) : KtEvent → (String → Option Int)
  | KtEvent.ins h t => knownTxsInsert m h t
  | KtEvent.sweep t => cleanupKnownTxs t m

/-- A timeline of inserts and housekeeper sweeps applied in order. -/
def runKtEvents (evs : List KtEvent) (m : String → Option Int) : String → Option Int :=
  evs.foldl applyKtEvent m

/-- The bucket cache only ever holds the canonical path triple of its key. -/
def cacheWF (cfg : TxProcessorCfg) (p : TxProcessorState) : Prop :=
  ∀ b of, p.outFiles b = some of → of = canonicalFiles cfg b

/-- Sample configuration (spec scenario S1): `OUT_DIR=out`, `UID=u1`,
sourcelog on, no inclusion checker. -/
def sampleCfg : TxProcessorCfg :=
  { outDir := "out", uid := "u1", writeSourcelog := true, checkerConfigured := false }

/-- Sample configuration with the inclusion checker configured. -/
def sampleCfgChk : TxProcessorCfg := { sampleCfg with checkerConfigured := true }

/-- Sample transaction with hash `0xaa` and raw encoding `0xbb`. -/
def sampleTx : Tx := { hashHex := "0xaa", rlp := some "0xbb" }

/-- Sample arrival of `sampleTx` from `local` at `1700000000000` ms. -/
def sampleTxIn1 : TxIn := { t := 1700000000000, tx := sampleTx, source := "local" }

/-- Sample arrival of `sampleTx` from `blx` 500 ms later. -/
def sampleTxIn2 : TxIn := { t := 1700000000500, tx := sampleTx, source := "blx" }

/-- Oracle on which the write to the `txs` file fails. -/
def sampleEnvTxsFail : IOEnv := { IOEnv.allOk with txsWriteOk := false }

/-- Oracle on which the inclusion RPC reports a receipt at block 18000000. -/
def sampleEnvReceipt : IOEnv :=
  { IOEnv.allOk with receiptResult := ReceiptResult.receipt 18000000 }

/-- Oracle on which the inclusion RPC fails with an error other than
"not found". -/
def sampleEnvErrOther : IOEnv :=
  { IOEnv.allOk with receiptResult := ReceiptResult.errOther "boom" }

/-- A state in which hash `0xaa` is already known with timestamp 42. -/
def sampleKnownState : TxProcessorState :=
  { initState with knownTxs := knownTxsInsert initState.knownTxs "0xaa" 42 }

theorem initState_cacheWF (cfg : TxProcessorCfg) : cacheWF cfg initState := by
  intro b of h
  simp [initState] at h

theorem getOutputCSVFiles_openOk (cfg : TxProcessorCfg) (env : IOEnv)
    (p : TxProcessorState) (ts : Int) (hc : cacheWF cfg p) (h2 : env.openOk = true) :
    ∃ p' c, getOutputCSVFiles cfg env p ts
        = some (canonicalFiles cfg (bucketOf ts), p', c)
      ∧ p'.knownTxs = p.knownTxs ∧ p'.txsLog = p.txsLog ∧ p'.srcLog = p.srcLog
      ∧ p'.trashLog = p.trashLog ∧ p'.txCnt = p.txCnt ∧ p'.srcCnt = p.srcCnt
      ∧ cacheWF cfg p' := by
  unfold getOutputCSVFiles
  cases h : p.outFiles (bucketOf ts) with
  | some files =>
    refine ⟨p, false, ?_, rfl, rfl, rfl, rfl, rfl, rfl, hc⟩
    simp [h, hc _ _ h]
  | none =>
    refine ⟨{ p with outFiles := fun b =>
        if b = bucketOf ts then some (canonicalFiles cfg (bucketOf ts))
        else p.outFiles b },
      true, ?_, rfl, rfl, rfl, rfl, rfl, rfl, ?_⟩
    · simp [h, h2]
    · intro b of hof
      simp only at hof
      by_cases hb : b = bucketOf ts
      · subst hb
        simp at hof
        exact hof.symm
      · exact hc b of (by simpa [hb] using hof)

theorem getOutputCSVFiles_some (cfg : TxProcessorCfg) (env : IOEnv)
    (p : TxProcessorState) (ts : Int) (f : OutFiles) (p' : TxProcessorState)
    (c : Bool) (h : getOutputCSVFiles cfg env p ts = some (f, p', c)) :
    p'.knownTxs = p.knownTxs ∧ p'.txsLog = p.txsLog ∧ p'.srcLog = p.srcLog
      ∧ p'.trashLog = p.trashLog ∧ p'.txCnt = p.txCnt ∧ p'.srcCnt = p.srcCnt
      ∧ (cacheWF cfg p → cacheWF cfg p' ∧ f = canonicalFiles cfg (bucketOf ts)) := by
  unfold getOutputCSVFiles at h
  cases hpo : p.outFiles (bucketOf ts) with
  | some files =>
    simp [hpo] at h
    obtain ⟨hf, hp, _⟩ := h
    subst hf hp
    exact ⟨rfl, rfl, rfl, rfl, rfl, rfl, fun hc => ⟨hc, hc _ _ hpo⟩⟩
  | none =>
    simp [hpo] at h
    obtain ⟨_, hf, hp, _⟩ := h
    subst hf
    rw [← hp]
    refine ⟨rfl, rfl, rfl, rfl, rfl, rfl, fun hc => ⟨?_, rfl⟩⟩
    intro b of hof
    simp only at hof
    by_cases hb : b = bucketOf ts
    · subst hb
      simp at hof
      exact hof.symm
    · exact hc b of (by simpa [hb] using hof)

theorem processTx_knownTxs_cases (cfg : TxProcessorCfg) (env : IOEnv)
    (p : TxProcessorState) (txIn : TxIn) :
    ((processTx cfg env p txIn).1.knownTxs = p.knownTxs
        ∧ (processTx cfg env p txIn).2 ≠ Outcome.persisted)
      ∨ ((processTx cfg env p txIn).1.knownTxs
            = knownTxsInsert p.knownTxs txIn.tx.hashHex txIn.t
          ∧ (processTx cfg env p txIn).2 = Outcome.persisted
          ∧ p.knownTxs txIn.tx.hashHex = none) := by
  cases hg : getOutputCSVFiles cfg env (countArrival p txIn) (unixSec txIn.t) with
  | none =>
    refine Or.inl ?_
    simp only [processTx, hg]
    exact ⟨rfl, by simp⟩
  | some r =>
    obtain ⟨f, p', c⟩ := r
    obtain ⟨e1, e2, e3, e4, e5, e6, _⟩ :=
      getOutputCSVFiles_some cfg env (countArrival p txIn) (unixSec txIn.t) f p' c hg
    have e1' : p'.knownTxs = p.knownTxs := e1
    simp only [processTx, hg]
    cases hk : p.knownTxs txIn.tx.hashHex with
    | some v =>
      by_cases hws : cfg.writeSourcelog = true <;>
        by_cases hsw : env.sourcelogWriteOk = true <;>
          simp [hws, hsw, e1', hk]
    | none =>
      by_cases hws : cfg.writeSourcelog = true <;>
        by_cases hsw : env.sourcelogWriteOk = true <;>
          by_cases hch : cfg.checkerConfigured = true <;>
            cases hrr : env.receiptResult <;>
              cases hrlp : txIn.tx.rlp <;>
                by_cases htw : env.txsWriteOk = true <;>
                  by_cases htrw : env.trashWriteOk = true <;>
                    simp [hws, hsw, hch, hrr, hrlp, htw, htrw, e1', hk, knownTxsInsert]

theorem processTx_cacheWF (cfg : TxProcessorCfg) (env : IOEnv)
    (p : TxProcessorState) (txIn : TxIn) (hc : cacheWF cfg p) :
    cacheWF cfg (processTx cfg env p txIn).1 := by
  cases hg : getOutputCSVFiles cfg env (countArrival p txIn) (unixSec txIn.t) with
  | none =>
    simp only [processTx, hg]
    exact hc
  | some r =>
    obtain ⟨f, p', c⟩ := r
    obtain ⟨e1, e2, e3, e4, e5, e6, hrest⟩ :=
      getOutputCSVFiles_some cfg env (countArrival p txIn) (unixSec txIn.t) f p' c hg
    have e1' : p'.knownTxs = p.knownTxs := e1
    have hc' : cacheWF cfg p' := (hrest hc).1
    simp only [processTx, hg]
    cases hk : p.knownTxs txIn.tx.hashHex <;>
      by_cases hws : cfg.writeSourcelog = true <;>
        by_cases hsw : env.sourcelogWriteOk = true <;>
          by_cases hch : cfg.checkerConfigured = true <;>
            cases hrr : env.receiptResult <;>
              cases hrlp : txIn.tx.rlp <;>
                by_cases htw : env.txsWriteOk = true <;>
                  by_cases htrw : env.trashWriteOk = true <;>
                    simp [hws, hsw, hch, hrr, hrlp, htw, htrw, e1', hk] <;>
                      exact hc'

theorem processTx_knownTxs_mono (cfg : TxProcessorCfg) (env : IOEnv)
    (p : TxProcessorState) (txIn : TxIn) (h : String) (v : Int)
    (hk : p.knownTxs h = some v) :
    (processTx cfg env p txIn).1.knownTxs h = some v := by
  rcases processTx_knownTxs_cases cfg env p txIn with ⟨he, _⟩ | ⟨he, _, hn⟩
  · rw [he, hk]
  · rw [he]
    unfold knownTxsInsert
    by_cases hx : h = txIn.tx.hashHex
    · rw [← hx] at hn
      rw [hn] at hk
      exact absurd hk (by simp)
    · simpa [hx] using hk

theorem processTx_persisted (cfg : TxProcessorCfg) (env : IOEnv)
    (p : TxProcessorState) (txIn : TxIn) (rlpHex : String)
    (hc : cacheWF cfg p)
    (hk : p.knownTxs txIn.tx.hashHex = none)
    (ho : env.openOk = true)
    (hs : cfg.writeSourcelog = true → env.sourcelogWriteOk = true)
    (hchk : cfg.checkerConfigured = true → env.receiptResult.isIncluded = false)
    (hr : txIn.tx.rlp = some rlpHex)
    (hw : env.txsWriteOk = true) :
    (processTx cfg env p txIn).2 = Outcome.persisted
      ∧ (processTx cfg env p txIn).1.txsLog
          = p.txsLog ++ [(txsPath cfg (bucketOf (unixSec txIn.t)),
              { timestamp := txIn.t, hash := txIn.tx.hashHex, rawTx := rlpHex })]
      ∧ (processTx cfg env p txIn).1.knownTxs
          = knownTxsInsert p.knownTxs txIn.tx.hashHex txIn.t
      ∧ (processTx cfg env p txIn).1.trashLog = p.trashLog
      ∧ (processTx cfg env p txIn).1.txCnt = p.txCnt + 1
      ∧ (processTx cfg env p txIn).1.srcLog
          = (if cfg.writeSourcelog = true then
               p.srcLog ++ [(srcPath cfg (bucketOf (unixSec txIn.t)),
                 { tsMs := txIn.t, hash := txIn.tx.hashHex, source := txIn.source })]
             else p.srcLog) := by
  obtain ⟨p', c, hg, e1, e2, e3, e4, e5, e6, hc'⟩ :=
    getOutputCSVFiles_openOk cfg env (countArrival p txIn) (unixSec txIn.t) hc ho
  have e1' : p'.knownTxs = p.knownTxs := e1
  have e2' : p'.txsLog = p.txsLog := e2
  have e3' : p'.srcLog = p.srcLog := e3
  have e4' : p'.trashLog = p.trashLog := e4
  have e5' : p'.txCnt = p.txCnt := e5
  simp only [processTx, hg]
  by_cases hws : cfg.writeSourcelog = true <;>
    by_cases hch : cfg.checkerConfigured = true <;>
      cases hrr : env.receiptResult <;>
        simp_all [ReceiptResult.isIncluded, canonicalFiles, knownTxsInsert]

theorem processTx_dedup (cfg : TxProcessorCfg) (env : IOEnv)
    (p : TxProcessorState) (txIn : TxIn) (v : Int)
    (hk : p.knownTxs txIn.tx.hashHex = some v)
    (ho : env.openOk = true)
    (hs : cfg.writeSourcelog = true → env.sourcelogWriteOk = true) :
    (processTx cfg env p txIn).2 = Outcome.dedup
      ∧ (processTx cfg env p txIn).1.txsLog = p.txsLog
      ∧ (processTx cfg env p txIn).1.knownTxs = p.knownTxs
      ∧ (processTx cfg env p txIn).1.trashLog = p.trashLog
      ∧ (processTx cfg env p txIn).1.txCnt = p.txCnt := by
  cases hg : getOutputCSVFiles cfg env (countArrival p txIn) (unixSec txIn.t) with
  | none =>
    unfold getOutputCSVFiles at hg
    cases hpo : (countArrival p txIn).outFiles (bucketOf (unixSec txIn.t)) <;>
      simp_all
  | some r =>
    obtain ⟨f, p', c⟩ := r
    obtain ⟨e1, e2, e3, e4, e5, e6, _⟩ :=
      getOutputCSVFiles_some cfg env (countArrival p txIn) (unixSec txIn.t) f p' c hg
    have e1' : p'.knownTxs = p.knownTxs := e1
    have e2' : p'.txsLog = p.txsLog := e2
    have e4' : p'.trashLog = p.trashLog := e4
    have e5' : p'.txCnt = p.txCnt := e5
    simp only [processTx, hg]
    by_cases hws : cfg.writeSourcelog = true <;>
      simp_all

theorem processTx_sourcelog (cfg : TxProcessorCfg) (env : IOEnv)
    (p : TxProcessorState) (txIn : TxIn)
    (hc : cacheWF cfg p)
    (hws : cfg.writeSourcelog = true)
    (ho : env.openOk = true)
    (hsw : env.sourcelogWriteOk = true) :
    (processTx cfg env p txIn).1.srcLog
      = p.srcLog ++ [(srcPath cfg (bucketOf (unixSec txIn.t)),
          { tsMs := txIn.t, hash := txIn.tx.hashHex, source := txIn.source })] := by
  obtain ⟨p', c, hg, e1, e2, e3, e4, e5, e6, hc'⟩ :=
    getOutputCSVFiles_openOk cfg env (countArrival p txIn) (unixSec txIn.t) hc ho
  have e1' : p'.knownTxs = p.knownTxs := e1
  have e3' : p'.srcLog = p.srcLog := e3
  simp only [processTx, hg]
  cases hk : p.knownTxs txIn.tx.hashHex <;>
    by_cases hch : cfg.checkerConfigured = true <;>
      cases hrr : env.receiptResult <;>
        cases hrlp : txIn.tx.rlp <;>
          by_cases htw : env.txsWriteOk = true <;>
            by_cases htrw : env.trashWriteOk = true <;>
              simp_all [canonicalFiles]

theorem processTx_trashed (cfg : TxProcessorCfg) (env : IOEnv)
    (p : TxProcessorState) (txIn : TxIn) (b : Int)
    (hc : cacheWF cfg p)
    (hk : p.knownTxs txIn.tx.hashHex = none)
    (ho : env.openOk = true)
    (hs : cfg.writeSourcelog = true → env.sourcelogWriteOk = true)
    (hch : cfg.checkerConfigured = true)
    (hrr : env.receiptResult = ReceiptResult.receipt b)
    (htrw : env.trashWriteOk = true) :
    (processTx cfg env p txIn).2 = Outcome.trashed b
      ∧ (processTx cfg env p txIn).1.trashLog
          = p.trashLog ++ [(trashPath cfg (bucketOf (unixSec txIn.t)),
              { tsMs := txIn.t, hash := txIn.tx.hashHex, source := txIn.source,
                reason := TrashTxAlreadyOnChain, extra := toString b })]
      ∧ (processTx cfg env p txIn).1.txsLog = p.txsLog
      ∧ (processTx cfg env p txIn).1.knownTxs = p.knownTxs
      ∧ (processTx cfg env p txIn).1.txCnt = p.txCnt
      ∧ (∀ s k, (processTx cfg env p txIn).1.srcCnt "first" s k = p.srcCnt "first" s k) := by
  obtain ⟨p', c, hg, e1, e2, e3, e4, e5, e6, hc'⟩ :=
    getOutputCSVFiles_openOk cfg env (countArrival p txIn) (unixSec txIn.t) hc ho
  have e1' : p'.knownTxs = p.knownTxs := e1
  have e2' : p'.txsLog = p.txsLog := e2
  have e4' : p'.trashLog = p.trashLog := e4
  have e5' : p'.txCnt = p.txCnt := e5
  have e6' : p'.srcCnt
      = SourceCounter.incKey (SourceCounter.inc p.srcCnt "all" txIn.source)
          "unique" txIn.source txIn.tx.hashHex := e6
  simp only [processTx, hg]
  by_cases hws : cfg.writeSourcelog = true <;>
    simp_all [canonicalFiles, countArrival, SourceCounter.inc, SourceCounter.incKey]

theorem txsRowCount_append (l : List (String × TxDetail)) (s : String)
    (d : TxDetail) (h : String) :
    txsRowCount (l ++ [(s, d)]) h
      = txsRowCount l h + (if d.hash = h then 1 else 0) := by
  unfold txsRowCount
  rw [List.filter_append, List.length_append]
  by_cases hd : d.hash = h <;> simp [hd]

theorem runTxs_cacheWF (cfg : TxProcessorCfg) (arrivals : List (IOEnv × TxIn))
    (p : TxProcessorState) (hc : cacheWF cfg p) :
    cacheWF cfg (runTxs cfg arrivals p).1 := by
  induction arrivals generalizing p with
  | nil => exact hc
  | cons a rest ih =>
    simp only [runTxs]
    exact ih _ (processTx_cacheWF cfg a.1 p a.2 hc)

theorem runTxs_knownTxs_mono (cfg : TxProcessorCfg) (arrivals : List (IOEnv × TxIn))
    (p : TxProcessorState) (h : String) (v : Int) (hk : p.knownTxs h = some v) :
    (runTxs cfg arrivals p).1.knownTxs h = some v := by
  induction arrivals generalizing p with
  | nil => exact hk
  | cons a rest ih =>
    simp only [runTxs]
    exact ih _ (processTx_knownTxs_mono cfg a.1 p a.2 h v hk)

theorem runTxs_srcLog (cfg : TxProcessorCfg) (arrivals : List (IOEnv × TxIn))
    (p : TxProcessorState) (hws : cfg.writeSourcelog = true)
    (hgood : ∀ a ∈ arrivals, a.1.openOk = true ∧ a.1.sourcelogWriteOk = true)
    (hc : cacheWF cfg p) :
    (runTxs cfg arrivals p).1.srcLog
      = p.srcLog ++ arrivals.map (fun a => (srcPath cfg (bucketOf (unixSec a.2.t)),
          { tsMs := a.2.t, hash := a.2.tx.hashHex, source := a.2.source })) := by
  induction arrivals generalizing p with
  | nil => simp [runTxs]
  | cons a rest ih =>
    obtain ⟨ho, hsw⟩ := hgood a (List.mem_cons_self a rest)
    simp only [runTxs]
    rw [ih (processTx cfg a.1 p a.2).1
        (fun x hx => hgood x (List.mem_cons_of_mem a hx))
        (processTx_cacheWF cfg a.1 p a.2 hc),
      processTx_sourcelog cfg a.1 p a.2 hc hws ho hsw]
    simp

theorem runTxs_dedup_aux (cfg : TxProcessorCfg) (arrivals : List (IOEnv × TxIn))
    (p : TxProcessorState) (seen : String → Bool)
    (hgood : ∀ a ∈ arrivals, okArrival a)
    (hc : cacheWF cfg p)
    (hseen : ∀ h, (p.knownTxs h).isSome = seen h)
    (hcnt : ∀ h, txsRowCount p.txsLog h = if seen h = true then 1 else 0) :
    (∀ h, ((runTxs cfg arrivals p).1.knownTxs h).isSome = true
        ↔ (seen h = true ∨ h ∈ arrivals.map (fun a => a.2.tx.hashHex)))
      ∧ (∀ h, txsRowCount (runTxs cfg arrivals p).1.txsLog h
          = if seen h = true ∨ h ∈ arrivals.map (fun a => a.2.tx.hashHex) then 1 else 0)
      ∧ (runTxs cfg arrivals p).2 = specDedupOutcomes seen arrivals := by
  induction arrivals generalizing p seen with
  | nil =>
    refine ⟨fun h => ?_, fun h => ?_, rfl⟩
    · simp [runTxs, hseen]
    · simpa [runTxs] using hcnt h
  | cons a rest ih =>
    obtain ⟨ho, hsw, htw, hni, hrlp⟩ := hgood a (List.mem_cons_self a rest)
    obtain ⟨rlpHex, hrl⟩ := Option.isSome_iff_exists.mp hrlp
    cases hs0 : seen a.2.tx.hashHex with
    | true =>
      have hks : (p.knownTxs a.2.tx.hashHex).isSome = true := by
        rw [hseen]; exact hs0
      obtain ⟨v, hv⟩ := Option.isSome_iff_exists.mp hks
      obtain ⟨ho1, ho2, ho3, ho4, ho5⟩ :=
        processTx_dedup cfg a.1 p a.2 v hv ho (fun _ => hsw)
      have hc1 := processTx_cacheWF cfg a.1 p a.2 hc
      have hseen1 : ∀ h, ((processTx cfg a.1 p a.2).1.knownTxs h).isSome = seen h := by
        intro h
        rw [ho3, hseen]
      have hcnt1 : ∀ h, txsRowCount (processTx cfg a.1 p a.2).1.txsLog h
          = if seen h = true then 1 else 0 := by
        intro h
        rw [ho2]
        exact hcnt h
      obtain ⟨ih1, ih2, ih3⟩ := ih (processTx cfg a.1 p a.2).1 seen
        (fun x hx => hgood x (List.mem_cons_of_mem a hx)) hc1 hseen1 hcnt1
      have hmem : ∀ h, (seen h = true ∨ h ∈ (a :: rest).map (fun x => x.2.tx.hashHex))
          ↔ (seen h = true ∨ h ∈ rest.map (fun x => x.2.tx.hashHex)) := by
        intro h
        rw [List.map_cons, List.mem_cons]
        constructor
        · rintro (hs | hq | hq)
          · exact Or.inl hs
          · refine Or.inl ?_
            rw [hq]
            exact hs0
          · exact Or.inr hq
        · rintro (hs | hq)
          · exact Or.inl hs
          · exact Or.inr (Or.inr hq)
      refine ⟨fun h => ?_, fun h => ?_, ?_⟩
      · simp only [runTxs]
        rw [ih1, hmem h]
      · simp only [runTxs]
        rw [ih2, if_congr (hmem h) rfl rfl]
      · simp only [runTxs]
        rw [ih3]
        simp [specDedupOutcomes, hs0, ho1]
    | false =>
      have hkn : p.knownTxs a.2.tx.hashHex = none := by
        have := hseen a.2.tx.hashHex
        rw [hs0] at this
        exact Option.not_isSome_iff_eq_none.mp (by rw [this]; simp)
      obtain ⟨hp1, hp2, hp3, hp4, hp5, hp6⟩ :=
        processTx_persisted cfg a.1 p a.2 rlpHex hc hkn ho (fun _ => hsw)
          (fun _ => hni) hrl htw
      have hc1 := processTx_cacheWF cfg a.1 p a.2 hc
      have hseen1 : ∀ h, ((processTx cfg a.1 p a.2).1.knownTxs h).isSome
          = (fun x => if x = a.2.tx.hashHex then true else seen x) h := by
        intro h
        rw [hp3]
        unfold knownTxsInsert
        by_cases hx : h = a.2.tx.hashHex <;> simp [hx, hseen]
      have hcnt1 : ∀ h, txsRowCount (processTx cfg a.1 p a.2).1.txsLog h
          = if (fun x => if x = a.2.tx.hashHex then true else seen x) h = true
            then 1 else 0 := by
        intro h
        rw [hp2, txsRowCount_append, hcnt h]
        by_cases hx : h = a.2.tx.hashHex
        · subst hx
          simp [hs0]
        · simp [hx, Ne.symm hx]
      obtain ⟨ih1, ih2, ih3⟩ := ih (processTx cfg a.1 p a.2).1
        (fun x => if x = a.2.tx.hashHex then true else seen x)
        (fun x hx => hgood x (List.mem_cons_of_mem a hx)) hc1 hseen1 hcnt1
      have hmem : ∀ h, ((if h = a.2.tx.hashHex then true else seen h) = true
            ∨ h ∈ rest.map (fun x => x.2.tx.hashHex))
          ↔ (seen h = true ∨ h ∈ (a :: rest).map (fun x => x.2.tx.hashHex)) := by
        intro h
        rw [List.map_cons, List.mem_cons]
        by_cases hx : h = a.2.tx.hashHex
        · simp [hx]
        · simp [hx]
      refine ⟨fun h => ?_, fun h => ?_, ?_⟩
      · simp only [runTxs]
        rw [ih1, hmem h]
      · simp only [runTxs]
        rw [ih2, if_congr (hmem h) rfl rfl]
      · simp only [runTxs]
        rw [ih3]
        simp [specDedupOutcomes, hs0, hp1]

/-- Claim C1: for any sequence of arrivals whose hashes may repeat, processed
with no I/O failures, inclusion checks reporting not-on-chain and no eviction
in between, the `txs` output receives exactly one row per distinct arriving
hash (and none for any other hash); the outcomes follow `specDedupOutcomes`:
the first arrival of each hash is persisted and every later arrival of the
same hash stops at the dedup probe. -/
theorem claim_C1_dedup (cfg : TxProcessorCfg) (arrivals : List (IOEnv × TxIn))
    (hgood : ∀ a ∈ arrivals, okArrival a) :
    (∀ h, h ∈ arrivals.map (fun a => a.2.tx.hashHex) →
        txsRowCount (runTxs cfg arrivals initState).1.txsLog h = 1)
      ∧ (∀ h, h ∉ arrivals.map (fun a => a.2.tx.hashHex) →
          txsRowCount (runTxs cfg arrivals initState).1.txsLog h = 0)
      ∧ (runTxs cfg arrivals initState).2
          = specDedupOutcomes (fun _ => false) arrivals := by
  obtain ⟨h1, h2, h3⟩ := runTxs_dedup_aux cfg arrivals initState (fun _ => false)
    hgood (initState_cacheWF cfg) (fun h => rfl)
    (fun h => by simp [txsRowCount, initState])
  refine ⟨fun h hm => ?_, fun h hm => ?_, h3⟩
  · rw [h2 h]
    simp [hm]
  · rw [h2 h]
    simp [hm]

theorem claim_C1_dedup_witness :
    (∀ a ∈ [(IOEnv.allOk, sampleTxIn1), (IOEnv.allOk, sampleTxIn2)], okArrival a)
      ∧ txsRowCount (runTxs sampleCfg
            [(IOEnv.allOk, sampleTxIn1), (IOEnv.allOk, sampleTxIn2)]
            initState).1.txsLog "0xaa" = 1 :=
  ⟨by decide,
    (claim_C1_dedup sampleCfg [(IOEnv.allOk, sampleTxIn1), (IOEnv.allOk, sampleTxIn2)]
        (by decide)).1 "0xaa" (by decide)⟩

/-- Claim C3: the known-tx cache is changed only by a `processTx` call that
ends with a successful `txs` write (`persisted`), in which case the hash was
previously unknown and is inserted with the arrival's timestamp; every other
ending — open failure, sourcelog-write failure, dedup, trash routing,
encoding failure, txs-write failure — leaves the cache untouched, so a
re-delivery of the same hash can re-persist the transaction. -/
theorem claim_C3_known_only_after_write (cfg : TxProcessorCfg) (env : IOEnv)
    (p : TxProcessorState) (txIn : TxIn) :
    ((processTx cfg env p txIn).2 ≠ Outcome.persisted →
        (processTx cfg env p txIn).1.knownTxs = p.knownTxs)
      ∧ ((processTx cfg env p txIn).2 = Outcome.persisted →
          p.knownTxs txIn.tx.hashHex = none
            ∧ (processTx cfg env p txIn).1.knownTxs
                = knownTxsInsert p.knownTxs txIn.tx.hashHex txIn.t) := by
  rcases processTx_knownTxs_cases cfg env p txIn with ⟨he, hne⟩ | ⟨he, ho, hn⟩
  · exact ⟨fun _ => he, fun hp => absurd hp hne⟩
  · exact ⟨fun hne => absurd ho hne, fun _ => ⟨hn, he⟩⟩

theorem claim_C3_known_only_after_write_witness :
    (processTx sampleCfg sampleEnvTxsFail initState sampleTxIn1).2 ≠ Outcome.persisted
      ∧ (processTx sampleCfg sampleEnvTxsFail initState sampleTxIn1).1.knownTxs
          = initState.knownTxs :=
  ⟨by decide,
    (claim_C3_known_only_after_write sampleCfg sampleEnvTxsFail initState
        sampleTxIn1).1 (by decide)⟩

/-- Claim C5: with sourcelog writing enabled and output files opening and
sourcelog writes succeeding, a run from the fresh state appends exactly one
sourcelog row per arrival, in arrival order, regardless of duplicate hashes
or any later failure of the same arrival — the sourcelog append precedes the
dedup probe. -/
theorem claim_C5_sourcelog (cfg : TxProcessorCfg) (arrivals : List (IOEnv × TxIn))
    (hws : cfg.writeSourcelog = true)
    (hgood : ∀ a ∈ arrivals, a.1.openOk = true ∧ a.1.sourcelogWriteOk = true) :
    (runTxs cfg arrivals initState).1.srcLog
      = arrivals.map (fun a => (srcPath cfg (bucketOf (unixSec a.2.t)),
          { tsMs := a.2.t, hash := a.2.tx.hashHex, source := a.2.source })) := by
  have h := runTxs_srcLog cfg arrivals initState hws hgood (initState_cacheWF cfg)
  simpa [initState] using h

theorem claim_C5_sourcelog_witness :
    (runTxs sampleCfg [(IOEnv.allOk, sampleTxIn1), (IOEnv.allOk, sampleTxIn2)]
        initState).1.srcLog
      = [(IOEnv.allOk, sampleTxIn1), (IOEnv.allOk, sampleTxIn2)].map
          (fun a => (srcPath sampleCfg (bucketOf (unixSec a.2.t)),
            { tsMs := a.2.t, hash := a.2.tx.hashHex, source := a.2.source })) :=
  claim_C5_sourcelog sampleCfg
    [(IOEnv.allOk, sampleTxIn1), (IOEnv.allOk, sampleTxIn2)] rfl (by decide)

/-- Claim C10: once a hash is in the known-tx cache with some timestamp, no
later arrival changes the stored value (any run leaves it intact), and an
arrival of that hash whose file open and sourcelog write succeed ends
exactly at the dedup probe. -/
theorem claim_C10_first_timestamp_stable (cfg : TxProcessorCfg)
    (arrivals : List (IOEnv × TxIn)) (p : TxProcessorState) (h : String) (v : Int)
    (hk : p.knownTxs h = some v) :
    (runTxs cfg arrivals p).1.knownTxs h = some v
      ∧ (∀ env txIn, txIn.tx.hashHex = h → env.openOk = true →
          (cfg.writeSourcelog = true → env.sourcelogWriteOk = true) →
          (processTx cfg env p txIn).2 = Outcome.dedup) := by
  refine ⟨runTxs_knownTxs_mono cfg arrivals p h v hk, fun env txIn hx ho hs => ?_⟩
  exact (processTx_dedup cfg env p txIn v (by rw [hx]; exact hk) ho hs).1

theorem claim_C10_first_timestamp_stable_witness :
    sampleKnownState.knownTxs "0xaa" = some 42
      ∧ (runTxs sampleCfg [(IOEnv.allOk, sampleTxIn2)]
            sampleKnownState).1.knownTxs "0xaa" = some 42 :=
  ⟨by decide,
    (claim_C10_first_timestamp_stable sampleCfg [(IOEnv.allOk, sampleTxIn2)]
        sampleKnownState "0xaa" 42 (by decide)).1⟩

/-- Claim C2 (code-bug evidence): when the sourcelog-directory mkdir step of
a fresh `getOutputCSVFiles` open fails after the transactions file has been
opened, the open is aborted with an error, yet the already-opened
transactions handle is not closed — no error path of the open sequence calls
`Close`, so partially opened handles leak. -/
theorem claim_C2_partial_handles_leak :
    (openOutputFilesSeq (fun s => decide (s = OpenStep.mkdirSrcDir))).ok = false
      ∧ (openOutputFilesSeq (fun s => decide (s = OpenStep.mkdirSrcDir))).opened
          = [OpenStep.openTxFile]
      ∧ (openOutputFilesSeq (fun s => decide (s = OpenStep.mkdirSrcDir))).closed
          = [] := by
  decide

/-- Claim C4: with the checker configured and the RPC returning a receipt at
block `b` for a not-yet-known hash, `processTx` appends exactly one
five-column row (reason `tx-already-on-chain`, extra the decimal block
number) to the bucket's trash file and stops: the `txs` log, the process-wide
tx counter and the `first` counters are untouched and the hash is not added
to `knownTxs`, so an identical re-delivery again ends in trash and writes
nothing to `txs`. -/
theorem claim_C4_onchain_routing (cfg : TxProcessorCfg) (env : IOEnv)
    (p : TxProcessorState) (txIn : TxIn) (b : Int)
    (hc : cacheWF cfg p)
    (hk : p.knownTxs txIn.tx.hashHex = none)
    (ho : env.openOk = true)
    (hs : cfg.writeSourcelog = true → env.sourcelogWriteOk = true)
    (hch : cfg.checkerConfigured = true)
    (hrr : env.receiptResult = ReceiptResult.receipt b)
    (htrw : env.trashWriteOk = true) :
    (processTx cfg env p txIn).2 = Outcome.trashed b
      ∧ (processTx cfg env p txIn).1.trashLog
          = p.trashLog ++ [(trashPath cfg (bucketOf (unixSec txIn.t)),
              { tsMs := txIn.t, hash := txIn.tx.hashHex, source := txIn.source,
                reason := TrashTxAlreadyOnChain, extra := toString b })]
      ∧ TrashTxAlreadyOnChain = "tx-already-on-chain"
      ∧ TrashRow.render
            { tsMs := txIn.t, hash := txIn.tx.hashHex, source := txIn.source,
              reason := TrashTxAlreadyOnChain, extra := toString b }
          = toString txIn.t ++ "," ++ txIn.tx.hashHex ++ "," ++ txIn.source
              ++ "," ++ TrashTxAlreadyOnChain ++ "," ++ toString b ++ "\n"
      ∧ (processTx cfg env p txIn).1.txsLog = p.txsLog
      ∧ (processTx cfg env p txIn).1.txCnt = p.txCnt
      ∧ (∀ s k, (processTx cfg env p txIn).1.srcCnt "first" s k
          = p.srcCnt "first" s k)
      ∧ (processTx cfg env p txIn).1.knownTxs = p.knownTxs
      ∧ (processTx cfg env (processTx cfg env p txIn).1 txIn).2 = Outcome.trashed b
      ∧ (processTx cfg env (processTx cfg env p txIn).1 txIn).1.txsLog
          = p.txsLog := by
  obtain ⟨m1, m2, m3, m4, m5, m6⟩ :=
    processTx_trashed cfg env p txIn b hc hk ho hs hch hrr htrw
  have hc1 := processTx_cacheWF cfg env p txIn hc
  have hk1 : (processTx cfg env p txIn).1.knownTxs txIn.tx.hashHex = none := by
    rw [m4]
    exact hk
  obtain ⟨n1, n2, n3, n4, n5, n6⟩ :=
    processTx_trashed cfg env (processTx cfg env p txIn).1 txIn b hc1 hk1 ho hs
      hch hrr htrw
  refine ⟨m1, m2, rfl, rfl, m3, m5, m6, m4, n1, ?_⟩
  rw [n3, m3]

theorem claim_C4_onchain_routing_witness :
    (processTx sampleCfgChk sampleEnvReceipt initState sampleTxIn1).2
        = Outcome.trashed 18000000
      ∧ (processTx sampleCfgChk sampleEnvReceipt initState sampleTxIn1).1.txsLog
          = initState.txsLog :=
  ⟨(claim_C4_onchain_routing sampleCfgChk sampleEnvReceipt initState sampleTxIn1
      18000000 (initState_cacheWF sampleCfgChk) (by decide) (by decide)
      (fun _ => by decide) (by decide) (by decide) (by decide)).1,
    (claim_C4_onchain_routing sampleCfgChk sampleEnvReceipt initState sampleTxIn1
      18000000 (initState_cacheWF sampleCfgChk) (by decide) (by decide)
      (fun _ => by decide) (by decide) (by decide) (by decide)).2.2.2.2.1⟩

/-- Claim C6: with the checker configured, an RPC error — the literal
"not found" as well as any other error — is not treated as an inclusion
verdict: the arrival proceeds as not-on-chain, nothing is written to trash,
and (the remaining steps succeeding) the transaction is persisted to `txs`
as usual. -/
theorem claim_C6_rpc_errors_nonauthoritative (cfg : TxProcessorCfg) (env : IOEnv)
    (p : TxProcessorState) (txIn : TxIn) (rlpHex : String)
    (hc : cacheWF cfg p)
    (_hch : cfg.checkerConfigured = true)
    (herr : env.receiptResult = ReceiptResult.errNotFound
        ∨ ∃ msg, env.receiptResult = ReceiptResult.errOther msg)
    (hk : p.knownTxs txIn.tx.hashHex = none)
    (ho : env.openOk = true)
    (hs : cfg.writeSourcelog = true → env.sourcelogWriteOk = true)
    (hr : txIn.tx.rlp = some rlpHex)
    (hw : env.txsWriteOk = true) :
    (processTx cfg env p txIn).2 = Outcome.persisted
      ∧ (processTx cfg env p txIn).1.trashLog = p.trashLog
      ∧ (processTx cfg env p txIn).1.txsLog
          = p.txsLog ++ [(txsPath cfg (bucketOf (unixSec txIn.t)),
              { timestamp := txIn.t, hash := txIn.tx.hashHex, rawTx := rlpHex })] := by
  have hni : cfg.checkerConfigured = true → env.receiptResult.isIncluded = false := by
    intro _
    rcases herr with hx | ⟨msg, hx⟩ <;> rw [hx] <;> rfl
  obtain ⟨m1, m2, m3, m4, m5, m6⟩ :=
    processTx_persisted cfg env p txIn rlpHex hc hk ho hs hni hr hw
  exact ⟨m1, m4, m2⟩

theorem claim_C6_rpc_errors_nonauthoritative_witness :
    (processTx sampleCfgChk sampleEnvErrOther initState sampleTxIn1).2
        = Outcome.persisted
      ∧ (processTx sampleCfgChk sampleEnvErrOther initState sampleTxIn1).1.trashLog
          = initState.trashLog :=
  ⟨(claim_C6_rpc_errors_nonauthoritative sampleCfgChk sampleEnvErrOther initState
      sampleTxIn1 "0xbb" (initState_cacheWF sampleCfgChk) (by decide)
      (Or.inr ⟨"boom", by decide⟩) (by decide) (by decide) (fun _ => by decide)
      (by decide) (by decide)).1,
    (claim_C6_rpc_errors_nonauthoritative sampleCfgChk sampleEnvErrOther initState
      sampleTxIn1 "0xbb" (initState_cacheWF sampleCfgChk) (by decide)
      (Or.inr ⟨"boom", by decide⟩) (by decide) (by decide) (fun _ => by decide)
      (by decide) (by decide)).2.1⟩

/-- Claim C7 counterexample: the code buckets by Go division, which truncates
toward zero, not by floor. The timestamps −3600 and −1 have the same floor
quotient by `bucketSec`, yet `getOutputCSVFiles` routes them to different
files, and the bucket key of −1 is not `floor(−1/B)·B`. -/
theorem claim_C7_counterexample :
    Int.fdiv (-3600) bucketSec = Int.fdiv (-1) bucketSec
      ∧ bucketOf (-1) ≠ Int.fdiv (-1) bucketSec * bucketSec
      ∧ Option.map (fun r => r.1)
            (getOutputCSVFiles sampleCfg IOEnv.allOk initState (-3600))
          ≠ Option.map (fun r => r.1)
            (getOutputCSVFiles sampleCfg IOEnv.allOk initState (-1)) := by
  refine ⟨by decide, by decide, by decide⟩

/-- Claim C7 (amended to nonnegative timestamps, where Go's truncating
division coincides with floor): for `0 ≤ t1, t2` with the same floor
quotient by `bucketSec`, `getOutputCSVFiles` routes both to the same triple
of directory paths and file names, and the bucket key equals
`floor(t/B)·B`. -/
theorem claim_C7_bucket_determinism (cfg : TxProcessorCfg) (env1 env2 : IOEnv)
    (t1 t2 : Int) (h1 : 0 ≤ t1) (h2 : 0 ≤ t2)
    (ho1 : env1.openOk = true) (ho2 : env2.openOk = true)
    (hfd : Int.fdiv t1 bucketSec = Int.fdiv t2 bucketSec) :
    Option.map (fun r => r.1) (getOutputCSVFiles cfg env1 initState t1)
        = Option.map (fun r => r.1) (getOutputCSVFiles cfg env2 initState t2)
      ∧ bucketOf t1 = Int.fdiv t1 bucketSec * bucketSec := by
  have hB : (0:Int) ≤ bucketSec := by decide
  have ht1 : Int.tdiv t1 bucketSec = Int.fdiv t1 bucketSec := by
    rw [Int.tdiv_eq_ediv h1 hB, Int.fdiv_eq_ediv _ hB]
  have ht2 : Int.tdiv t2 bucketSec = Int.fdiv t2 bucketSec := by
    rw [Int.tdiv_eq_ediv h2 hB, Int.fdiv_eq_ediv _ hB]
  have hbuck : bucketOf t1 = bucketOf t2 := by
    unfold bucketOf
    rw [ht1, ht2, hfd]
  constructor
  · simp [getOutputCSVFiles, initState, ho1, ho2, hbuck]
  · unfold bucketOf
    rw [ht1]

theorem claim_C7_bucket_determinism_witness :
    Int.fdiv 1700000000 bucketSec = Int.fdiv 1700000800 bucketSec
      ∧ Option.map (fun r => r.1)
            (getOutputCSVFiles sampleCfg IOEnv.allOk initState 1700000000)
          = Option.map (fun r => r.1)
            (getOutputCSVFiles sampleCfg IOEnv.allOk initState 1700000800) :=
  ⟨by decide,
    (claim_C7_bucket_determinism sampleCfg IOEnv.allOk IOEnv.allOk 1700000000
        1700000800 (by decide) (by decide) (by decide) (by decide) (by decide)).1⟩

/-- Claim C8: a first-seen, not-on-chain arrival that is successfully
persisted appends its row to the file
`<OUT_DIR>/<YYYY-MM-DD>/transactions/txs_<YYYY-MM-DD_HH-MM>_<UID>.csv`,
date and `HH-MM` being the arrival's bucket start rendered in UTC, and the
row renders as `<ts_ms>,<hash_hex>,<raw_hex>` followed by a newline. -/
theorem claim_C8_txs_row_and_path (cfg : TxProcessorCfg) (env : IOEnv)
    (p : TxProcessorState) (txIn : TxIn) (rlpHex : String)
    (hc : cacheWF cfg p)
    (hk : p.knownTxs txIn.tx.hashHex = none)
    (ho : env.openOk = true)
    (hs : cfg.writeSourcelog = true → env.sourcelogWriteOk = true)
    (hchk : cfg.checkerConfigured = true → env.receiptResult.isIncluded = false)
    (hr : txIn.tx.rlp = some rlpHex)
    (hw : env.txsWriteOk = true) :
    (processTx cfg env p txIn).2 = Outcome.persisted
      ∧ (processTx cfg env p txIn).1.txsLog
          = p.txsLog ++ [(cfg.outDir ++ "/"
              ++ fmtDateOnly (bucketOf (unixSec txIn.t)) ++ "/transactions/"
              ++ getFilename cfg.uid "txs" (bucketOf (unixSec txIn.t)),
              { timestamp := txIn.t, hash := txIn.tx.hashHex, rawTx := rlpHex })]
      ∧ getFilename cfg.uid "txs" (bucketOf (unixSec txIn.t))
          = "txs_" ++ fmtDateHM (bucketOf (unixSec txIn.t)) ++ "_"
              ++ cfg.uid ++ ".csv"
      ∧ TxDetail.render { timestamp := txIn.t, hash := txIn.tx.hashHex, rawTx := rlpHex }
          = toString txIn.t ++ "," ++ txIn.tx.hashHex ++ "," ++ rlpHex ++ "\n" := by
  obtain ⟨m1, m2, m3, m4, m5, m6⟩ :=
    processTx_persisted cfg env p txIn rlpHex hc hk ho hs hchk hr hw
  exact ⟨m1, m2, rfl, rfl⟩

theorem claim_C8_txs_row_and_path_witness :
    (processTx sampleCfg IOEnv.allOk initState sampleTxIn1).1.txsLog
        = [("out/2023-11-14/transactions/txs_2023-11-14_22-00_u1.csv",
            { timestamp := 1700000000000, hash := "0xaa", rawTx := "0xbb" })]
      ∧ TxDetail.render
            { timestamp := 1700000000000, hash := "0xaa", rawTx := "0xbb" }
          = "1700000000000,0xaa,0xbb\n" := by
  obtain ⟨w1, w2, w3, w4⟩ :=
    claim_C8_txs_row_and_path sampleCfg IOEnv.allOk initState sampleTxIn1 "0xbb"
      (initState_cacheWF sampleCfg) (by decide) (by decide) (fun _ => by decide)
      (fun _ => by decide) (by decide) (by decide)
  constructor
  · rw [w2]
    decide
  · decide

theorem cleanupKnownTxs_bound (c : Int) (m : String → Option Int) (h : String)
    (v : Int) (hv : cleanupKnownTxs c m h = some v) : c - v ≤ txCacheTime := by
  unfold cleanupKnownTxs at hv
  cases hm : m h with
  | none => simp [hm] at hv
  | some w =>
    rw [hm] at hv
    by_cases hgt : c - w > txCacheTime
    · simp [hgt] at hv
    · simp [hgt] at hv
      omega

theorem runKtEvents_after_sweep (evs : List KtEvent) (c : Int)
    (hnosweep : ∀ t, KtEvent.sweep t ∉ evs)
    (hins : ∀ x s, KtEvent.ins x s ∈ evs → c ≤ s)
    (m : String → Option Int)
    (hm : ∀ h v, m h = some v → c - v ≤ txCacheTime ∨ c ≤ v) :
    ∀ h v, runKtEvents evs m h = some v → c - v ≤ txCacheTime ∨ c ≤ v := by
  induction evs generalizing m with
  | nil => exact hm
  | cons e rest ih =>
    intro h v hv
    cases e with
    | sweep t => exact absurd (List.mem_cons_self _ _) (hnosweep t)
    | ins x s =>
      refine ih (fun t ht => hnosweep t (List.mem_cons_of_mem _ ht))
        (fun x' s' hx => hins x' s' (List.mem_cons_of_mem _ hx))
        (knownTxsInsert m x s) ?_ h v hv
      intro h' v' hv'
      unfold knownTxsInsert at hv'
      by_cases hx : h' = x
      · simp [hx] at hv'
        rw [← hv']
        exact Or.inr (hins x s (List.mem_cons_self _ _))
      · simp [hx] at hv'
        exact hm h' v' hv'

/-- Claim C9: one housekeeper sweep at time `now` keeps exactly the entries
whose age `now − inserted_at` is at most `TX_CACHE_TTL` and deletes the rest;
consequently, along any timeline of inserts and sweeps whose last sweep at
time `c` lies within one tick of the observation time `now` and whose later
inserts carry timestamps not older than `c`, every surviving entry has age
at most `TX_CACHE_TTL + tick_period`. -/
theorem claim_C9_ttl_eviction :
    (∀ now m h v, cleanupKnownTxs now m h = some v
        ↔ (m h = some v ∧ now - v ≤ txCacheTime))
      ∧ (∀ (evs1 evs2 : List KtEvent) (c now : Int) (m0 : String → Option Int)
          (h : String) (v : Int),
          (∀ t, KtEvent.sweep t ∉ evs2) →
          (∀ x s, KtEvent.ins x s ∈ evs2 → c ≤ s) →
          now - c ≤ tickPeriod →
          runKtEvents (evs1 ++ KtEvent.sweep c :: evs2) m0 h = some v →
          now - v ≤ txCacheTime + tickPeriod) := by
  constructor
  · intro now m h v
    unfold cleanupKnownTxs
    cases hm : m h with
    | none => simp
    | some w =>
      by_cases hgt : now - w > txCacheTime
      · simp [hgt]
        omega
      · simp [hgt]
        intro hv
        omega
  · intro evs1 evs2 c now m0 h v hnosweep hins htick hrun
    have hdec : runKtEvents (evs1 ++ KtEvent.sweep c :: evs2) m0
        = runKtEvents evs2 (cleanupKnownTxs c (runKtEvents evs1 m0)) := by
      unfold runKtEvents
      rw [List.foldl_append, List.foldl_cons]
      rfl
    rw [hdec] at hrun
    have hbase : ∀ h' v', cleanupKnownTxs c (runKtEvents evs1 m0) h' = some v' →
        c - v' ≤ txCacheTime ∨ c ≤ v' :=
      fun h' v' hv' => Or.inl (cleanupKnownTxs_bound c _ h' v' hv')
    rcases runKtEvents_after_sweep evs2 c hnosweep hins _ hbase h v hrun with hle | hge
    · simp only [txCacheTime, tickPeriod] at *
      omega
    · simp only [txCacheTime, tickPeriod] at *
      omega

theorem claim_C9_ttl_eviction_witness :
    runKtEvents ([] ++ KtEvent.sweep 2000000 :: [KtEvent.ins "b" 2000100])
        (fun _ => none) "b" = some 2000100
      ∧ (2050000 : Int) - 2000100 ≤ txCacheTime + tickPeriod :=
  ⟨by decide,
    claim_C9_ttl_eviction.2 [] [KtEvent.ins "b" 2000100] 2000000 2050000
      (fun _ => none) "b" 2000100
      (by intro t ht; simp at ht)
      (by
        intro x s hx
        simp at hx
        rw [hx.2]
        decide)
      (by decide) (by decide)⟩

section Scratch

example :
    utcOfUnix 1700000000 =
      { year := 2023, month := 11, day := 14, hour := 22, minute := 13 } := by
  decide

example : bucketOf 1700000000 = 1699999200 := by decide

example : fmtDateHM 1699999200 = "2023-11-14_22-00" := by decide

example :
    txsPath { outDir := "out", uid := "u1", writeSourcelog := true,
              checkerConfigured := false } 1699999200 =
      "out/2023-11-14/transactions/txs_2023-11-14_22-00_u1.csv" := by
  decide

example : fmtDateHM (-3600) = "1969-12-31_23-00" := by decide

example : fmtDateHM 0 = "1970-01-01_00-00" := by decide

end Scratch
